import Mathlib

/-!
Verification of the address normalization and geocoding resolution pipeline
of `scripts/create_map.py`.

The Python functions `format_address`, `geocode_address`, `fetch_coffee_shops`
and the per-shop resolution step of `add_coffee_shop_markers` are shallowly
embedded below.  Strings are modelled by Lean `String` (lists of characters),
Python floats by `ℚ`, and the external geocoding service by a function from
query strings to abstract responses.  All definitions are executable.
-/

set_option maxRecDepth 4000

/-! ### Python string primitives -/

/-- Whitespace characters recognised by Python `str.strip` and by `\s` in the
regular expressions of the script (ASCII range, which covers the data). -/
def pySpace (c : Char) : Bool :=
  c = ' ' || c = '\t' || c = '\n' || c = '\r' || c = '\x0b' || c = '\x0c'

/-- Python `str.strip()` on a character list. -/
def pyStripL (cs : List Char) : List Char :=
  ((cs.dropWhile pySpace).reverse.dropWhile pySpace).reverse

/-- Python `str.strip()`. -/
def pyStrip (s : String) : String := String.mk (pyStripL s.toList)

/-- Python `str.upper()` (ASCII). -/
def upperL (cs : List Char) : List Char := cs.map Char.toUpper

/-- Python `str.lower()` (ASCII). -/
def lowerL (cs : List Char) : List Char := cs.map Char.toLower

/-- Python `s[-n:]`: the last `n` characters (all of them if `n` exceeds the
length). -/
def lastNL (n : ℕ) (cs : List Char) : List Char := cs.drop (cs.length - n)

/-- Index of the first occurrence of `p` in `cs` (Python `str.find`, as an
`Option` instead of `-1`). -/
def pyFindL (p : List Char) : List Char → Option ℕ
  | [] => if p = [] then some 0 else none
  | c :: t => if p <+: (c :: t) then some 0 else (pyFindL p t).map (· + 1)

/-- One step of Python `str.replace(old, new)`: replace every non-overlapping
occurrence of `p` by `r`, scanning left to right.  `fuel` bounds the
recursion; callers pass the length of the input plus one, which is always
sufficient because each step consumes at least one character when `p ≠ []`. -/
def pyReplaceGo (p r : List Char) : ℕ → List Char → List Char
  | 0, cs => cs
  | fuel + 1, cs =>
    if p <+: cs then r ++ pyReplaceGo p r fuel (cs.drop p.length)
    else
      match cs with
      | [] => []
      | c :: t => c :: pyReplaceGo p r fuel t

/-- Python `s.replace(p, r)`. -/
def pyReplace (s p r : String) : String :=
  String.mk (pyReplaceGo p.toList r.toList (s.toList.length + 1) s.toList)

/-- Python `s.split(sep)` for a non-empty separator, scanning left to right. -/
def pySplitGo (sep : List Char) : ℕ → List Char → List Char → List (List Char)
  | 0, cs, cur => [cur ++ cs]
  | fuel + 1, cs, cur =>
    if sep <+: cs then cur :: pySplitGo sep fuel (cs.drop sep.length) []
    else
      match cs with
      | [] => [cur]
      | c :: t => pySplitGo sep fuel t (cur ++ [c])

/-- Python `s.split(sep)`. -/
def pySplit (s sep : String) : List String :=
  (pySplitGo sep.toList (s.toList.length + 1) s.toList []).map String.mk

/-- Parse of a decimal literal by Python `float()`: optional sign, digits,
optional fractional part (scientific notation, `inf` and `nan` do not occur in
the modelled service responses).  Surrounding whitespace is stripped, as
`float()` does. -/
def natValL (cs : List Char) : ℕ :=
  cs.foldl (fun a c => a * 10 + (c.toNat - '0'.toNat)) 0

def parseUnsigned (cs : List Char) : Option ℚ :=
  let ip := cs.takeWhile Char.isDigit
  let rest := cs.drop ip.length
  match rest with
  | [] => if ip = [] then none else some (natValL ip)
  | '.' :: frac =>
    if frac.all Char.isDigit ∧ (ip ≠ [] ∨ frac ≠ []) then
      some ((natValL ip : ℚ) + (natValL frac : ℚ) / (10 ^ frac.length))
    else none
  | _ => none

def pyFloat (s : String) : Option ℚ :=
  match pyStripL s.toList with
  | '-' :: rest => (parseUnsigned rest).map Neg.neg
  | '+' :: rest => parseUnsigned rest
  | cs => parseUnsigned cs

/-! ### The address normalizer `format_address` -/

/-- The suite-indicator tokens of `format_address`; the replacement inserted
by the Python code is always `", " + pattern`. -/
def suitePatternsFmt : List (List Char) :=
  ["Suite ", "Ste ", "STE ", "Unit ", "UNIT ", "#"].map String.toList

/-- One iteration of the suite-comma loop of `format_address`: insert a comma
before the first occurrence of `pat` unless the string already contains the
guarded form `", pat"` or `",pat"`, the occurrence is at position 0, or a
comma directly precedes it. -/
def fmtSuiteStep (s : List Char) (pat : List Char) : List Char :=
  if (pat <:+: s) ∧ ¬((',' :: ' ' :: pat) <:+: s) ∧ ¬((',' :: pat) <:+: s) then
    match pyFindL pat s with
    | none => s
    | some pos =>
      if 0 < pos then
        let cb := s.getD (pos - 1) ' '
        if cb ≠ ',' ∧ cb ≠ ' ' then
          s.take pos ++ (',' :: ' ' :: pat) ++ s.drop (pos + pat.length)
        else if cb = ' ' then
          s.take (pos - 1) ++ (',' :: ' ' :: pat) ++ s.drop (pos + pat.length)
        else s
      else s
  else s

def fmtSuiteFold (s : List Char) : List Char :=
  suitePatternsFmt.foldl fmtSuiteStep s

/-- Rule 3 of `format_address`: append `", KY"` when neither `KY` nor
`KENTUCKY` occurs in the uppercased string. -/
def addKY (s : String) : String :=
  if ¬("KY".toList <:+: upperL s.toList) ∧ ¬("KENTUCKY".toList <:+: upperL s.toList) then
    s ++ ", KY"
  else s

/-- Rule 4 of `format_address`: when none of the last 10 characters is a digit
and a county was supplied, replace `", KY"` by `", <County> County, KY"`. -/
def countyInsert (s county : String) : String :=
  if (¬ (lastNL 10 s.toList).any Char.isDigit) ∧ county ≠ "" then
    if ", KY".toList <:+: s.toList then
      String.mk (pyReplaceGo ", KY".toList
        (',' :: ' ' :: (county.toList ++ " County, KY".toList))
        (s.toList.length + 1) s.toList)
    else s
  else s

/-- The address normalizer `format_address(address, county)` of
`scripts/create_map.py`. -/
def format_address (address county : String) : String :=
  if address = "" then ""
  else countyInsert (addKY (String.mk (fmtSuiteFold (pyStripL address.toList)))) county



/-! ### Backtracking matchers for the two fixed regular expressions of
`geocode_address` -/

/-- First success of `f` over a list of alternatives, in order: the
backtracking preference order of the regex engine. -/
def firstSome {α β : Type} (f : α → Option β) : List α → Option β
  | [] => none
  | a :: as =>
    match f a with
    | some b => some b
    | none => firstSome f as

/-- Remainders after a greedy `p*`: consume a maximal run of `p`-characters
first, backtracking one character at a time. -/
def dropsGreedy (p : Char → Bool) (cs : List Char) : List (List Char) :=
  let r := (cs.takeWhile p).length
  (List.range (r + 1)).map (fun k => cs.drop (r - k))

/-- Character class `[A-Za-z\s]` of the city/state/zip pattern. -/
def cityClass (c : Char) : Bool := c.isAlpha || pySpace c

/-- Literal `KY`. -/
def litKY : List Char → Option (List Char)
  | 'K' :: 'Y' :: rest => some rest
  | _ => none

/-- Exactly five digits (`\d{5}`). -/
def digits5 (cs : List Char) : Option (List Char) :=
  let d := cs.take 5
  if d.length = 5 ∧ d.all Char.isDigit then some (cs.drop 5) else none

/-- Tail `,?\s*KY\s*\d{5}` of the pattern
`[A-Za-z\s]+,?\s*KY\s*\d{5}`, returning the unconsumed suffix. -/
def cityTail (cs : List Char) : Option (List Char) :=
  let commaOpts := match cs with
    | ',' :: rest => [rest, cs]
    | _ => [cs]
  firstSome (fun c1 =>
      firstSome (fun c2 =>
          match litKY c2 with
          | none => none
          | some c3 => firstSome digits5 (dropsGreedy pySpace c3))
        (dropsGreedy pySpace c1))
    commaOpts

/-- Length of the leftmost match of `[A-Za-z\s]+,?\s*KY\s*\d{5}` starting at
the head of `cs`, with the greedy/backtracking order of `re`. -/
def cityMatchAt (cs : List Char) : Option ℕ :=
  let r := (cs.takeWhile cityClass).length
  firstSome
    (fun j => (cityTail (cs.drop (r - j))).map (fun rem => cs.length - rem.length))
    (List.range r)

/-- `re.search(r'[A-Za-z\s]+,?\s*KY\s*\d{5}', ...)`: leftmost match, returned
as the matched substring (`match.group()`). -/
def cityFindFrom : List Char → Option (List Char)
  | [] => none
  | c :: t =>
    match cityMatchAt (c :: t) with
    | some len => some ((c :: t).take len)
    | none => cityFindFrom t

def citySearch (s : String) : Option String := (cityFindFrom s.toList).map String.mk

/-- Alternation `(Suite|Ste|STE|Unit|UNIT|#)`, in source order. -/
def altToks : List (List Char) :=
  ["Suite", "Ste", "STE", "Unit", "UNIT", "#"].map String.toList

/-- Character class `[A-Za-z0-9\-]`. -/
def alnumDash (c : Char) : Bool := c.isAlpha || c.isDigit || c = '-'

/-- Tail `(Suite|Ste|STE|Unit|UNIT|#)\s*[A-Za-z0-9\-]+` of the suite-strip
pattern, returning the unconsumed suffix. -/
def suiteTail (cs : List Char) : Option (List Char) :=
  firstSome (fun tok =>
      if tok <+: cs then
        firstSome (fun c4 =>
            let r := (c4.takeWhile alnumDash).length
            if r = 0 then none else some (c4.drop r))
          (dropsGreedy pySpace (cs.drop tok.length))
      else none)
    altToks

/-- Length of a match of `,?\s*(Suite|Ste|STE|Unit|UNIT|#)\s*[A-Za-z0-9\-]+`
anchored at the head of `cs`. -/
def suiteMatchAt (cs : List Char) : Option ℕ :=
  let commaOpts := match cs with
    | ',' :: rest => [rest, cs]
    | _ => [cs]
  firstSome (fun c1 =>
      firstSome (fun c2 => (suiteTail c2).map (fun rem => cs.length - rem.length))
        (dropsGreedy pySpace c1))
    commaOpts

/-- `re.sub` of the suite-strip pattern with the empty replacement: delete
every non-overlapping match, scanning left to right. -/
def suiteSubGo : ℕ → List Char → List Char
  | 0, cs => cs
  | fuel + 1, cs =>
    match suiteMatchAt cs with
    | some len => suiteSubGo fuel (cs.drop len)
    | none =>
      match cs with
      | [] => []
      | c :: t => c :: suiteSubGo fuel t

def suiteSub (s : String) : String :=
  String.mk (suiteSubGo (s.toList.length + 1) s.toList)

/-! ### The candidate generator of `geocode_address` -/

/-- Append a candidate only when it is not already present
(`if v not in address_attempts: address_attempts.append(v)`). -/
def addIfNew (l : List String) (s : String) : List String :=
  if s ∈ l then l else l ++ [s]

/-- The twelve suite-pattern variants tried by `geocode_address`. -/
def suitePatternsGeo : List String :=
  [", Suite ", ", Ste ", ", STE ", ", Unit ", ", UNIT ", ", #",
   " Suite ", " Ste ", " STE ", " Unit ", " UNIT ", " #"]

/-- The suite-split-with-tail candidate built for one pattern: text before the
pattern, plus a trailing city/state/zip fragment (or the whole remainder when
it mentions `KY`). -/
def suiteCandidate (address pat : String) : String :=
  let parts := pySplit address pat
  let base := parts.getD 0 ""
  if 1 < parts.length then
    let after := parts.getD 1 ""
    match citySearch after with
    | some g => base ++ ", " ++ pyStrip g
    | none =>
      if "KY".toList <:+: after.toList then base ++ ", " ++ pyStrip after
      else base
  else base

def suiteFoldGeo (address : String) (acc : List String) : List String :=
  suitePatternsGeo.foldl
    (fun acc pat =>
      if pat.toList <:+: address.toList then addIfNew acc (suiteCandidate address pat)
      else acc)
    acc

/-- The `no_suite` candidate: the address with every suite/unit token and its
value removed by the global regex substitution. -/
def noSuiteStep (address : String) (acc : List String) : List String :=
  if suiteSub address ≠ address then addIfNew acc (suiteSub address) else acc

/-- The ordered street-abbreviation variations of `geocode_address`
(insertion order of the Python dict). -/
def street_abbrev_variations : List (String × String) :=
  [(" Dr ", " Drive "), (" Dr,", " Drive,"),
   (" St ", " Street "), (" St,", " Street,"),
   (" Ave ", " Avenue "), (" Ave,", " Avenue,"),
   (" Rd ", " Road "), (" Rd,", " Road,"),
   (" Blvd ", " Boulevard "), (" Blvd,", " Boulevard,"),
   (" Cir ", " Circle "), (" Cir,", " Circle,")]

/-- One entry of the abbreviation loop: expand when the abbreviated form is
present, otherwise (`elif`) contract when the full word is present. -/
def abbrevStep (address : String) (acc : List String) (pr : String × String) : List String :=
  if pr.1.toList <:+: address.toList then addIfNew acc (pyReplace address pr.1 pr.2)
  else if pr.2.toList <:+: address.toList then addIfNew acc (pyReplace address pr.2 pr.1)
  else acc

def abbrevFold (address : String) (acc : List String) : List String :=
  street_abbrev_variations.foldl (abbrevStep address) acc

/-- The full ordered candidate list (`address_attempts`) that
`geocode_address` tries, starting from the unmodified address. -/
def genCandidates (address : String) : List String :=
  abbrevFold address (noSuiteStep address (suiteFoldGeo address [address]))


/-! ### The geocoding resolver -/

/-- One result object of the geocoding service response: a display name and
string-encoded coordinates. -/
structure GeoMatch where
  display_name : String
  lat : String
  lon : String
deriving DecidableEq, Repr

/-- Outcome of one query to the external service: transport failure
(`requests.RequestException`), malformed response (JSON decode error), or a
list of result objects. -/
inductive Response where
  | netError
  | parseError
  | ok (results : List GeoMatch)
deriving DecidableEq, Repr

/-- Source tag of a successful resolution. -/
inductive Source where
  | override
  | geocoded
deriving DecidableEq, Repr

/-- Outcome of `geocode_address`: coordinates with the 0-based index of the
successful candidate, or failure with the number of attempts tried and the
diagnostic message. -/
inductive ResolutionResult where
  | resolved (source : Source) (attemptIndex : ℕ) (lat lon : ℚ)
  | failed (attemptsTried : ℕ) (msg : String)
deriving DecidableEq, Repr

/-- Selection among a non-empty result list: the first result whose display
name mentions `kentucky` (case-insensitive), else the first result. -/
def bestOf : List GeoMatch → Option GeoMatch
  | [] => none
  | m :: rest =>
    some
      (match (m :: rest).filter
          (fun r => decide ("kentucky".toList <:+: lowerL r.display_name.toList)) with
        | b :: _ => b
        | [] => m)

/-- Processing of one attempt's response: `none` when the attempt falls
through to the next candidate (transport failure, parse failure, zero
matches, or unparseable coordinates of the selected match — all caught by the
`except` clauses), `some (lat, lon)` on success. -/
def attemptOutcome (r : Response) : Option (ℚ × ℚ) :=
  match r with
  | .netError => none
  | .parseError => none
  | .ok ms =>
    match bestOf ms with
    | none => none
    | some best =>
      match pyFloat best.lat, pyFloat best.lon with
      | some la, some lo => some (la, lo)
      | _, _ => none

/-- The candidate loop of `geocode_address`: try candidates in order, keeping
the 0-based index, and stop at the first successful attempt. -/
def resolveLoop (svc : String → Response) : List String → ℕ → Option (ℕ × ℚ × ℚ)
  | [], _ => none
  | c :: rest, i =>
    match attemptOutcome (svc c) with
    | some (la, lo) => some (i, la, lo)
    | none => resolveLoop svc rest (i + 1)

/-- `geocode_address(address, original_address)` of `scripts/create_map.py`,
with the external Nominatim service abstracted as `svc` (the rate-limit sleep
has no observable effect on the result).  The Python `(None, msg)` failure
pairs are modelled by `ResolutionResult.failed`; the early return for an
empty address carries zero attempts. -/
def geocode_address (address original : String) (svc : String → Response) :
    ResolutionResult :=
  if address = "" then .failed 0 "No address provided"
  else
    match resolveLoop svc (genCandidates address) 0 with
    | some (i, la, lo) => .resolved .geocoded i la lo
    | none =>
      .failed (genCandidates address).length
        ("All " ++ toString (genCandidates address).length ++
          " geocoding attempts failed for: " ++
          (if original = "" then address else original))

/-- Attempt index of a successful resolution, if any. -/
def attemptIndexOf : ResolutionResult → Option ℕ
  | .resolved _ i _ _ => some i
  | .failed _ _ => none

/-! ### The ingestor `fetch_coffee_shops` -/

/-- One structured record produced by `fetch_coffee_shops` (a dict in the
Python code). -/
structure Shop where
  name : String
  address : String
  original_address : String
  county : String
  location_num : ℕ
  row_number : ℕ
deriving DecidableEq, Repr

def mobileKeywords : List String := ["mobile", "truck", "cart", "trailer"]

/-- `name = row[0].strip() if row[0] else f"Coffee Shop {i}"`. -/
def rowName (i : ℕ) (row : List String) : String :=
  if row.getD 0 "" ≠ "" then pyStrip (row.getD 0 "") else "Coffee Shop " ++ toString i

/-- `address1 = row[1].strip() if len(row) > 1 and row[1] else ""`. -/
def rowAddr1 (row : List String) : String :=
  if 1 < row.length ∧ row.getD 1 "" ≠ "" then pyStrip (row.getD 1 "") else ""

/-- `address2 = row[2].strip() if len(row) > 2 and row[2] else ""`. -/
def rowAddr2 (row : List String) : String :=
  if 2 < row.length ∧ row.getD 2 "" ≠ "" then pyStrip (row.getD 2 "") else ""

/-- `county = row[5].strip() if len(row) > 5 and row[5] else ""`: the county
is read from index 5, the sixth column. -/
def rowCounty (row : List String) : String :=
  if 5 < row.length ∧ row.getD 5 "" ≠ "" then pyStrip (row.getD 5 "") else ""

/-- `any(keyword in name.lower() for keyword in ['mobile','truck','cart','trailer'])`. -/
def isMobileName (name : String) : Bool :=
  mobileKeywords.any (fun k => decide (k.toList <:+: lowerL name.toList))

/-- The records contributed by one data row (`i` is the 1-based data-row
counter of `enumerate(rows[1:], 1)`).  Rows with fewer than 3 columns are
skipped; an empty first address diverts mobile-keyword rows away from the
record list; a non-empty second address contributes a `(Location 2)` record. -/
def processRow (i : ℕ) (row : List String) : List Shop :=
  if row.length < 3 then []
  else
    let name := rowName i row
    let address1 := rowAddr1 row
    let address2 := rowAddr2 row
    let county := rowCounty row
    let first : List Shop :=
      if address1 ≠ "" then
        [⟨name, format_address address1 county, address1, county, 1, i + 1⟩]
      else if isMobileName name then []
      else [⟨name, "", "", county, 1, i + 1⟩]
    let second : List Shop :=
      if address2 ≠ "" then
        [⟨name ++ " (Location 2)", format_address address2 county, address2, county, 2, i + 1⟩]
      else []
    first ++ second

/-- The names appended to the separate `mobile_trucks` list for one data row
(printed, never turned into records). -/
def processRowMobile (i : ℕ) (row : List String) : List String :=
  if row.length < 3 then []
  else if rowAddr1 row = "" ∧ isMobileName (rowName i row) then [rowName i row]
  else []

def fetchRowsFrom (i : ℕ) : List (List String) → List Shop
  | [] => []
  | r :: rs => processRow i r ++ fetchRowsFrom (i + 1) rs

/-- `fetch_coffee_shops` on already-parsed CSV rows: row 0 is the header and
is discarded; the data rows are enumerated from 1. -/
def fetch_coffee_shops (rows : List (List String)) : List Shop :=
  match rows with
  | [] => []
  | _hdr :: rest => fetchRowsFrom 1 rest

/-! ### The per-shop resolution step of `add_coffee_shop_markers` -/

/-- The `manual_coordinates` override table of the script. -/
def manual_coordinates : List (String × ℚ × ℚ) :=
  [("121 Bethel Harvest Dr Nicholasville, KY 40356", (37.8814 : ℚ), (-84.5730 : ℚ))]

/-- Exact-match lookup in an override table (Python `dict` membership plus
indexing). -/
def lookupOverride (table : List (String × ℚ × ℚ)) (key : String) : Option (ℚ × ℚ) :=
  match table.find? (fun e => e.1 == key) with
  | some e => some (e.2.1, e.2.2)
  | none => none

/-- Per-shop outcome inside the marker loop. -/
inductive ShopOutcome where
  | skipped
  | overridden (lat lon : ℚ)
  | geocodedRes (r : ResolutionResult)
deriving DecidableEq, Repr

/-- Number of outbound service calls implied by a `geocode_address` result:
one per attempted candidate. -/
def callsOf : ResolutionResult → ℕ
  | .resolved _ i _ _ => i + 1
  | .failed n _ => n

/-- One iteration of the marker loop: skip empty addresses, consult the
override table with the formatted (normalized) address, otherwise geocode.
The second component counts external geocoding calls. -/
def resolveShop (table : List (String × ℚ × ℚ)) (svc : String → Response)
    (shop : Shop) : ShopOutcome × ℕ :=
  if shop.address = "" then (.skipped, 0)
  else
    match lookupOverride table shop.address with
    | some (la, lo) => (.overridden la lo, 0)
    | none =>
      (.geocodedRes (geocode_address shop.address shop.original_address svc),
        callsOf (geocode_address shop.address shop.original_address svc))

/-- One failure entry of the detailed report. -/
structure FailEntry where
  name : String
  original_address : String
  formatted_address : String
  error : String
  row : ℕ
deriving DecidableEq, Repr

/-- The `failed_geocoding` list accumulated by the marker loop. -/
def processShops (table : List (String × ℚ × ℚ)) (svc : String → Response) :
    List Shop → List FailEntry
  | [] => []
  | shop :: rest =>
    (match (resolveShop table svc shop).1 with
      | .geocodedRes (.failed _ msg) =>
        [⟨shop.name, shop.original_address, shop.address, msg, shop.row_number⟩]
      | _ => []) ++ processShops table svc rest

/-! ### Concrete service behaviors used in witnesses and counterexamples -/

/-- A service that always reports a transport failure. -/
def svcNet : String → Response := fun _ => Response.netError

/-- A service that always answers with zero matches. -/
def svcEmpty : String → Response := fun _ => Response.ok []

/-- A service that succeeds on the first candidate of `"A Dr B, KY"` with a
well-formed match. -/
def svcFirstGood : String → Response := fun s =>
  if s = "A Dr B, KY" then Response.ok [⟨"Lexington, Kentucky, USA", "38", "-84"⟩]
  else Response.netError

/-- A service that returns one match with an unparseable latitude for the
first candidate of `"A Rd B, KY"` and a well-formed match for the second. -/
def svcBadThenGood : String → Response := fun s =>
  if s = "A Rd B, KY" then Response.ok [⟨"x", "bad", "0"⟩]
  else if s = "A Road B, KY" then Response.ok [⟨"y", "1.5", "2.5"⟩]
  else Response.netError

/-! ### Helper lemmas: the append-if-absent discipline of `address_attempts` -/

/-- Invariant carried through candidate generation: the unmodified address
stays at position 0 and the list has no duplicates. -/
def CandInv (address : String) (l : List String) : Prop :=
  l.head? = some address ∧ l.Nodup

theorem addIfNew_head? {l : List String} {a s : String} (h : l.head? = some a) :
    (addIfNew l s).head? = some a := by
  unfold addIfNew
  split
  · exact h
  · cases l with
    | nil => simp at h
    | cons x t => simpa using h

theorem addIfNew_nodup {l : List String} {s : String} (h : l.Nodup) :
    (addIfNew l s).Nodup := by
  unfold addIfNew
  split
  · exact h
  · next hs => simp [List.nodup_append, h, hs]

theorem addIfNew_inv {address : String} {l : List String} {s : String}
    (h : CandInv address l) : CandInv address (addIfNew l s) :=
  ⟨addIfNew_head? h.1, addIfNew_nodup h.2⟩

theorem mem_addIfNew_self (l : List String) (s : String) : s ∈ addIfNew l s := by
  unfold addIfNew
  split
  · assumption
  · simp

theorem mem_addIfNew_of_mem {l : List String} {x : String} (s : String)
    (h : x ∈ l) : x ∈ addIfNew l s := by
  unfold addIfNew
  split
  · exact h
  · exact List.mem_append_left _ h

/-- Generic preservation of a property through a `foldl` whose steps all
preserve it. -/
theorem foldl_preserve {β : Type} (P : List String → Prop)
    (f : List String → β → List String)
    (hf : ∀ acc b, P acc → P (f acc b)) :
    ∀ (bs : List β) (acc : List String), P acc → P (List.foldl f acc bs)
  | [], _, h => h
  | b :: bs, acc, h => foldl_preserve P f hf bs (f acc b) (hf acc b h)

theorem suiteFoldGeo_inv {address : String} {acc : List String}
    (h : CandInv address acc) : CandInv address (suiteFoldGeo address acc) := by
  unfold suiteFoldGeo
  refine foldl_preserve _ _ (fun acc pat hacc => ?_) _ _ h
  dsimp only
  split
  · exact addIfNew_inv hacc
  · exact hacc

theorem noSuiteStep_inv {address : String} {acc : List String}
    (h : CandInv address acc) : CandInv address (noSuiteStep address acc) := by
  unfold noSuiteStep
  split
  · exact addIfNew_inv h
  · exact h

theorem abbrevFold_inv {address : String} {acc : List String}
    (h : CandInv address acc) : CandInv address (abbrevFold address acc) := by
  unfold abbrevFold
  refine foldl_preserve _ _ (fun acc pr hacc => ?_) _ _ h
  unfold abbrevStep
  split
  · exact addIfNew_inv hacc
  · split
    · exact addIfNew_inv hacc
    · exact hacc

theorem genCandidates_inv (address : String) :
    CandInv address (genCandidates address) :=
  abbrevFold_inv (noSuiteStep_inv (suiteFoldGeo_inv ⟨rfl, List.nodup_singleton _⟩))

theorem genCandidates_head? (address : String) :
    (genCandidates address).head? = some address :=
  (genCandidates_inv address).1

theorem genCandidates_length_pos (address : String) :
    0 < (genCandidates address).length := by
  have h := genCandidates_head? address
  cases hg : genCandidates address with
  | nil => rw [hg] at h; simp at h
  | cons x t => simp

/-! ### Helper lemmas: membership in the abbreviation fold -/

theorem abbrevStep_mono {address x : String} {acc : List String}
    (pr : String × String) (h : x ∈ acc) : x ∈ abbrevStep address acc pr := by
  unfold abbrevStep
  split
  · exact mem_addIfNew_of_mem _ h
  · split
    · exact mem_addIfNew_of_mem _ h
    · exact h

theorem foldl_abbrevStep_mono {address x : String} :
    ∀ (prs : List (String × String)) (acc : List String),
      x ∈ acc → x ∈ List.foldl (abbrevStep address) acc prs
  | [], _, h => h
  | pr :: prs, acc, h =>
    foldl_abbrevStep_mono prs (abbrevStep address acc pr) (abbrevStep_mono pr h)

/-- After the abbreviation fold has processed the pair `(ab, fu)`, the
expansion candidate is present whenever the abbreviated form occurs in the
address, and the contraction candidate is present whenever the abbreviated
form is absent but the full word occurs. -/
theorem foldl_abbrevStep_mem {address ab fu : String} :
    ∀ (prs : List (String × String)) (acc : List String),
      (ab, fu) ∈ prs →
      ((ab.toList <:+: address.toList → pyReplace address ab fu ∈ List.foldl (abbrevStep address) acc prs) ∧
       (¬(ab.toList <:+: address.toList) → fu.toList <:+: address.toList →
         pyReplace address fu ab ∈ List.foldl (abbrevStep address) acc prs))
  | [], _, h => absurd h (List.not_mem_nil _)
  | pr :: prs, acc, h => by
    rcases List.mem_cons.1 h with heq | htail
    · subst heq
      constructor
      · intro hab
        refine foldl_abbrevStep_mono prs _ ?_
        unfold abbrevStep
        rw [if_pos hab]
        exact mem_addIfNew_self _ _
      · intro hab hfu
        refine foldl_abbrevStep_mono prs _ ?_
        unfold abbrevStep
        rw [if_neg hab, if_pos hfu]
        exact mem_addIfNew_self _ _
    · exact foldl_abbrevStep_mem prs _ htail

/-! ### Helper lemmas: the resolver loop -/

theorem resolveLoop_succeeds (svc : String → Response) (la lo : ℚ) :
    ∀ (cands : List String) (i0 i : ℕ), i < cands.length →
      (∀ j, j < i → attemptOutcome (svc (cands.getD j "")) = none) →
      attemptOutcome (svc (cands.getD i "")) = some (la, lo) →
      resolveLoop svc cands i0 = some (i0 + i, la, lo)
  | [], _, i, hi, _, _ => absurd hi (by simp)
  | c :: rest, i0, 0, _, _, hsucc => by
    have hc : attemptOutcome (svc c) = some (la, lo) := by
      simpa [List.getD] using hsucc
    simp [resolveLoop, hc]
  | c :: rest, i0, i + 1, hi, hfail, hsucc => by
    have h0 : attemptOutcome (svc c) = none := by
      have := hfail 0 (Nat.succ_pos i)
      simpa using this
    have hrec := resolveLoop_succeeds svc la lo rest (i0 + 1) i
      (by simpa using Nat.lt_of_succ_lt_succ hi)
      (fun j hj => by
        have := hfail (j + 1) (Nat.succ_lt_succ hj)
        simpa using this)
      (by simpa using hsucc)
    simp only [resolveLoop, h0]
    rw [hrec]
    congr 2
    omega

theorem resolveLoop_exhausts (svc : String → Response) :
    ∀ (cands : List String) (i0 : ℕ),
      (∀ c ∈ cands, attemptOutcome (svc c) = none) →
      resolveLoop svc cands i0 = none
  | [], _, _ => rfl
  | c :: rest, i0, h => by
    have h0 : attemptOutcome (svc c) = none := h c (List.mem_cons_self c rest)
    simp only [resolveLoop, h0]
    exact resolveLoop_exhausts svc rest (i0 + 1)
      (fun d hd => h d (List.mem_cons_of_mem c hd))

/-- With a non-empty address, `geocode_address` always implies at least one
outbound call: either some candidate at index `i` succeeded (`i + 1` calls)
or all of the at-least-one candidates were tried. -/
theorem geocode_calls_pos (address original : String) (svc : String → Response)
    (h : address ≠ "") : 1 ≤ callsOf (geocode_address address original svc) := by
  unfold geocode_address
  rw [if_neg h]
  cases hl : resolveLoop svc (genCandidates address) 0 with
  | none =>
    simp only [hl, callsOf]
    exact genCandidates_length_pos address
  | some v =>
    rcases v with ⟨i, la, lo⟩
    simp [hl, callsOf]

/-! ### Helper lemmas: the ingestor -/

theorem processRow_row_number {i : ℕ} {row : List String} {s : Shop}
    (h : s ∈ processRow i row) : s.row_number = i + 1 := by
  unfold processRow at h
  split at h
  · simp at h
  · rcases List.mem_append.1 h with h1 | h2
    · split at h1
      · rw [List.mem_singleton.1 h1]
      · split at h1
        · simp at h1
        · rw [List.mem_singleton.1 h1]
    · split at h2
      · rw [List.mem_singleton.1 h2]
      · simp at h2

theorem processRow_county {i : ℕ} {row : List String} {s : Shop}
    (h : s ∈ processRow i row) : s.county = rowCounty row := by
  unfold processRow at h
  split at h
  · simp at h
  · rcases List.mem_append.1 h with h1 | h2
    · split at h1
      · rw [List.mem_singleton.1 h1]
      · split at h1
        · simp at h1
        · rw [List.mem_singleton.1 h1]
    · split at h2
      · rw [List.mem_singleton.1 h2]
      · simp at h2

theorem fetchRowsFrom_mem :
    ∀ (rest : List (List String)) (i k : ℕ) (row : List String) (s : Shop),
      rest.get? k = some row → s ∈ processRow (i + k) row → s ∈ fetchRowsFrom i rest
  | [], _, k, _, _, hk, _ => by simp at hk
  | r :: rs, i, 0, row, s, hk, hs => by
    have : r = row := by simpa using hk
    subst this
    exact List.mem_append_left _ (by simpa using hs)
  | r :: rs, i, k + 1, row, s, hk, hs => by
    refine List.mem_append_right _ ?_
    exact fetchRowsFrom_mem rs (i + 1) k row s (by simpa using hk)
      (by
        have : i + 1 + k = i + (k + 1) := by omega
        rw [this]
        exact hs)

theorem processShops_row (table : List (String × ℚ × ℚ)) (svc : String → Response) :
    ∀ (shops : List Shop) (e : FailEntry), e ∈ processShops table svc shops →
      ∃ s, s ∈ shops ∧ e.row = s.row_number
  | [], _, h => by simp [processShops] at h
  | shop :: rest, e, h => by
    unfold processShops at h
    rcases List.mem_append.1 h with h1 | h2
    · refine ⟨shop, List.mem_cons_self _ _, ?_⟩
      split at h1
      · rw [List.mem_singleton.1 h1]
      · simp at h1
    · obtain ⟨s, hs, he⟩ := processShops_row table svc rest e h2
      exact ⟨s, List.mem_cons_of_mem _ hs, he⟩

/-! ### Claim theorems -/

/-- C1: a record whose formatted (normalized) address exactly equals a key of
the override table resolves to that table's coordinate pair with source
Override and zero external calls; the lookup uses only the normalized
address, so a miss on it always triggers at least one geocoding call
regardless of the raw address. -/
theorem c1_override_short_circuit :
    (∀ (table : List (String × ℚ × ℚ)) (svc : String → Response) (shop : Shop)
        (la lo : ℚ), shop.address ≠ "" →
      lookupOverride table shop.address = some (la, lo) →
      resolveShop table svc shop = (.overridden la lo, 0)) ∧
    (∀ (table : List (String × ℚ × ℚ)) (svc : String → Response) (shop : Shop),
      shop.address ≠ "" → lookupOverride table shop.address = none →
      1 ≤ (resolveShop table svc shop).2) := by
  constructor
  · intro table svc shop la lo hne hhit
    unfold resolveShop
    rw [if_neg hne, hhit]
  · intro table svc shop hne hmiss
    unfold resolveShop
    rw [if_neg hne, hmiss]
    exact geocode_calls_pos _ _ _ hne

theorem c1_override_short_circuit_w :
    resolveShop manual_coordinates svcNet
      ⟨"Joe's Coffee", "121 Bethel Harvest Dr Nicholasville, KY 40356",
        "121 Bethel Harvest Dr Nicholasville, KY 40356", "Jessamine", 1, 2⟩ =
      (.overridden (37.8814 : ℚ) (-84.5730 : ℚ), 0) :=
  c1_override_short_circuit.1 manual_coordinates svcNet _ _ _ (by decide) (by rfl)

/-- C2 (amended): at an index `i` whose response has one or more matches and
whose selected match (first mentioning `kentucky` case-insensitively, else
the first) has parseable coordinates, provided every earlier attempt fell
through, the resolver returns a Geocoded success at index `i` with exactly
those coordinates, and the result does not depend on the service beyond
index `i` (no later candidate is attempted). -/
theorem c2_first_parsed_match (address original : String) (svc : String → Response)
    (i : ℕ) (ms : List GeoMatch) (best : GeoMatch) (la lo : ℚ)
    (hne : address ≠ "")
    (hi : i < (genCandidates address).length)
    (hfail : ∀ j, j < i →
      attemptOutcome (svc ((genCandidates address).getD j "")) = none)
    (hok : svc ((genCandidates address).getD i "") = .ok ms)
    (hbest : bestOf ms = some best)
    (hla : pyFloat best.lat = some la)
    (hlo : pyFloat best.lon = some lo) :
    geocode_address address original svc = .resolved .geocoded i la lo ∧
    ∀ svc' : String → Response,
      (∀ j, j ≤ i →
        svc' ((genCandidates address).getD j "") = svc ((genCandidates address).getD j "")) →
      geocode_address address original svc' = .resolved .geocoded i la lo := by
  have hout : attemptOutcome (svc ((genCandidates address).getD i "")) = some (la, lo) := by
    rw [hok]
    simp [attemptOutcome, hbest, hla, hlo]
  constructor
  · unfold geocode_address
    rw [if_neg hne]
    rw [resolveLoop_succeeds svc la lo (genCandidates address) 0 i hi hfail hout]
    simp
  · intro svc' hagree
    unfold geocode_address
    rw [if_neg hne]
    have hfail' : ∀ j, j < i →
        attemptOutcome (svc' ((genCandidates address).getD j "")) = none := by
      intro j hj
      rw [hagree j (le_of_lt hj)]
      exact hfail j hj
    have hout' : attemptOutcome (svc' ((genCandidates address).getD i "")) = some (la, lo) := by
      rw [hagree i le_rfl]
      exact hout
    rw [resolveLoop_succeeds svc' la lo (genCandidates address) 0 i hi hfail' hout']
    simp

theorem c2_first_parsed_match_w :
    geocode_address "A Dr B, KY" "o" svcFirstGood =
      .resolved .geocoded 0 (38 : ℚ) (-84 : ℚ) :=
  (c2_first_parsed_match "A Dr B, KY" "o" svcFirstGood 0
    [⟨"Lexington, Kentucky, USA", "38", "-84"⟩]
    ⟨"Lexington, Kentucky, USA", "38", "-84"⟩ (38 : ℚ) (-84 : ℚ)
    (by decide) (by decide) (fun j hj => absurd hj (Nat.not_lt_zero j))
    (by decide) (by decide) (by decide) (by decide)).1

/-- C2, counterexample to the claim as stated: the query for the candidate at
index 0 returns one match, yet the resolver does not return a Geocoded
success at index 0 — the match's latitude fails to parse, the attempt falls
through, and the candidate at index 1 is attempted and succeeds. -/
theorem c2_first_match_cx :
    svcBadThenGood ((genCandidates "A Rd B, KY").getD 0 "") =
      Response.ok [⟨"x", "bad", "0"⟩] ∧
    ([(⟨"x", "bad", "0"⟩ : GeoMatch)] ≠ []) ∧
    attemptIndexOf (geocode_address "A Rd B, KY" "orig" svcBadThenGood) = some 1 := by
  decide

/-- C3: when every candidate's attempt ends in a transport failure, a
parse failure or an empty result list, the resolver falls through all `N`
candidates without an uncaught fault and returns a failure reporting exactly
`N` attempts whose message embeds the original (pre-normalization) address. -/
theorem c3_exhaustion (address original : String) (svc : String → Response)
    (ha : address ≠ "") (ho : original ≠ "")
    (hfail : ∀ c ∈ genCandidates address,
      svc c = Response.netError ∨ svc c = Response.parseError ∨ svc c = Response.ok []) :
    geocode_address address original svc =
      .failed (genCandidates address).length
        ("All " ++ toString (genCandidates address).length ++
          " geocoding attempts failed for: " ++ original) := by
  unfold geocode_address
  rw [if_neg ha]
  have hnone : ∀ c ∈ genCandidates address, attemptOutcome (svc c) = none := by
    intro c hc
    rcases hfail c hc with h | h | h <;> rw [h] <;> rfl
  rw [resolveLoop_exhausts svc _ 0 hnone]
  simp [ho]

theorem c3_exhaustion_w :
    geocode_address "A Ave B, KY" "raw addr" svcEmpty =
      .failed (genCandidates "A Ave B, KY").length
        ("All " ++ toString (genCandidates "A Ave B, KY").length ++
          " geocoding attempts failed for: " ++ "raw addr") :=
  c3_exhaustion "A Ave B, KY" "raw addr" svcEmpty (by decide) (by decide) (by decide)

/-- C4: for a non-empty normalized address the candidate list has length at
least one, its element 0 is the address unchanged, and its elements are
pairwise distinct. -/
theorem c4_candidate_invariants (address : String) (_h : address ≠ "") :
    1 ≤ (genCandidates address).length ∧
    (genCandidates address).head? = some address ∧
    (genCandidates address).Nodup :=
  ⟨genCandidates_length_pos address, (genCandidates_inv address).1,
    (genCandidates_inv address).2⟩

theorem c4_candidate_invariants_w :
    1 ≤ (genCandidates "A St B, KY").length ∧
    (genCandidates "A St B, KY").head? = some "A St B, KY" ∧
    (genCandidates "A St B, KY").Nodup :=
  c4_candidate_invariants "A St B, KY" (by decide)

/-- C6 (amended): for each abbreviation pair in the table, a candidate with
the abbreviated form expanded is added whenever the abbreviated form occurs;
the contracted candidate is added only when the abbreviated form is absent
and the full word occurs (the branches are `if`/`elif`, not independent). -/
theorem c6_abbrev_candidates (address ab fu : String)
    (hp : (ab, fu) ∈ street_abbrev_variations) :
    (ab.toList <:+: address.toList →
      pyReplace address ab fu ∈ genCandidates address) ∧
    (¬(ab.toList <:+: address.toList) → fu.toList <:+: address.toList →
      pyReplace address fu ab ∈ genCandidates address) := by
  unfold genCandidates abbrevFold
  exact foldl_abbrevStep_mem _ _ hp

theorem c6_abbrev_candidates_w :
    pyReplace "A Dr B, KY" " Dr " " Drive " ∈ genCandidates "A Dr B, KY" :=
  (c6_abbrev_candidates "A Dr B, KY" " Dr " " Drive " (by decide)).1 (by decide)

/-- C6, counterexample to the claim as stated: the full word ` Drive `
(bounded by spaces) occurs in the address, but because the abbreviated form
` Dr ` also occurs, no contracted candidate is ever added. -/
theorem c6_contract_cx :
    (" Drive ".toList <:+: "A Dr B Drive C".toList) ∧
    pyReplace "A Dr B Drive C" " Drive " " Dr " ∉ genCandidates "A Dr B Drive C" := by
  decide

/-- C8 (amended): a row with at least 3 columns yields one record for its
first address column — none when the first address is empty and the name
matches a mobile keyword, in which case the name goes to the separate
mobile-trucks list — plus one record when the second address is non-empty. -/
theorem c8_record_counts (i : ℕ) (row : List String) (h : ¬ row.length < 3) :
    (processRow i row).length =
      ((if rowAddr1 row ≠ "" then 1
        else if isMobileName (rowName i row) then 0 else 1) +
       (if rowAddr2 row ≠ "" then 1 else 0)) ∧
    (rowAddr1 row = "" → isMobileName (rowName i row) = true →
      processRowMobile i row = [rowName i row]) := by
  constructor
  · simp only [processRow, if_neg h, List.length_append]
    congr 1 <;> split_ifs <;> simp_all
  · intro h1 h2
    unfold processRowMobile
    rw [if_neg h, if_pos ⟨h1, h2⟩]

theorem c8_record_counts_w :
    (processRow 1 ["A", "x", "y"]).length =
      ((if rowAddr1 ["A", "x", "y"] ≠ "" then 1
        else if isMobileName (rowName 1 ["A", "x", "y"]) then 0 else 1) +
       (if rowAddr2 ["A", "x", "y"] ≠ "" then 1 else 0)) :=
  (c8_record_counts 1 ["A", "x", "y"] (by decide)).1

/-- C8, counterexample to the claim as stated: a 3-column row whose name
matches a mobile keyword and whose address columns are empty yields zero
records — not one or two. -/
theorem c8_mobile_cx :
    ¬((processRow 1 ["Joe Coffee Truck", "", ""]).length = 1 ∨
      (processRow 1 ["Joe Coffee Truck", "", ""]).length = 2) := by
  decide

/-- C9 (amended): row 0 is discarded as a header (the result does not depend
on its contents), rows with fewer than 3 columns are skipped, and every
record's county is read from column index 5 — the sixth column, not the
seventh. -/
theorem c9_ingest_layout :
    (∀ (h1 h2 : List String) (rest : List (List String)),
      fetch_coffee_shops (h1 :: rest) = fetch_coffee_shops (h2 :: rest)) ∧
    (∀ (i : ℕ) (row : List String), row.length < 3 → processRow i row = []) ∧
    (∀ (i : ℕ) (row : List String) (s : Shop),
      s ∈ processRow i row → s.county = rowCounty row) :=
  ⟨fun _ _ _ => rfl, fun i row h => by simp [processRow, h],
    fun _ _ _ hs => processRow_county hs⟩

theorem c9_ingest_layout_w : processRow 3 ["x"] = [] :=
  c9_ingest_layout.2.1 3 ["x"] (by decide)

/-- C9, counterexample to the claim as stated: with a seventh column present,
the ingested record's county is the value of the sixth column (index 5), not
the seventh (index 6). -/
theorem c9_county_column_cx :
    (fetch_coffee_shops
        [["h"], ["A", "addr", "", "", "", "Fayette", "Scott"]]).map (fun s => s.county) =
      ["Fayette"] ∧
    ["A", "addr", "", "", "", "Fayette", "Scott"].getD 6 "" = "Scott" ∧
    "Fayette" ≠ "Scott" := by
  decide

/-- C10: every record carries row number `i + 1` where `i` is its 1-based
position among the data rows (so the first data row after the discarded
header is reported as row 2, and both records of a dual-address row share
the number); the failure report copies exactly these row numbers. -/
theorem c10_row_numbers :
    (∀ (i : ℕ) (row : List String) (s : Shop),
      s ∈ processRow i row → s.row_number = i + 1) ∧
    (∀ (hdr : List String) (rest : List (List String)) (k : ℕ)
        (row : List String) (s : Shop),
      rest.get? k = some row → s ∈ processRow (k + 1) row →
      s ∈ fetch_coffee_shops (hdr :: rest)) ∧
    (∀ (table : List (String × ℚ × ℚ)) (svc : String → Response)
        (shops : List Shop) (e : FailEntry),
      e ∈ processShops table svc shops → ∃ s, s ∈ shops ∧ e.row = s.row_number) := by
  refine ⟨fun _ _ _ h => processRow_row_number h, ?_, processShops_row⟩
  intro hdr rest k row s hk hs
  show s ∈ fetchRowsFrom 1 rest
  rw [Nat.add_comm k 1] at hs
  exact fetchRowsFrom_mem rest 1 k row s hk hs

theorem c10_row_numbers_w :
    (⟨"A", format_address "x" "Fay", "x", "Fay", 1, 2⟩ : Shop).row_number = 2 :=
  c10_row_numbers.1 1 ["A", "x", "", "", "", "Fay"]
    ⟨"A", format_address "x" "Fay", "x", "Fay", 1, 2⟩ (by decide)

/-! ### Helper lemmas: `KY` persistence through the normalizer -/

theorem infix_append_left (l₁ : List Char) {l l₂ : List Char} (h : l <:+: l₂) :
    l <:+: l₁ ++ l₂ := by
  obtain ⟨s, t, rfl⟩ := h
  exact ⟨l₁ ++ s, t, by simp⟩

theorem infix_upper {l₁ l₂ : List Char} (h : l₁ <:+: l₂) :
    upperL l₁ <:+: upperL l₂ := by
  obtain ⟨s, t, rfl⟩ := h
  exact ⟨upperL s, upperL t, by simp [upperL]⟩

/-- When the pattern occurs in the input, the output of a global replace
contains the replacement string. -/
theorem pyReplaceGo_infix_repl {p r : List Char} (hp : p ≠ []) :
    ∀ (fuel : ℕ) (cs : List Char), cs.length ≤ fuel → p <:+: cs →
      r <:+: pyReplaceGo p r fuel cs
  | 0, cs, hlen, hinf => by
    have : cs = [] := List.eq_nil_of_length_eq_zero (Nat.le_zero.mp hlen)
    subst this
    exact absurd (by simpa using hinf) hp
  | fuel + 1, cs, hlen, hinf => by
    unfold pyReplaceGo
    split
    · exact (List.prefix_append r _).isInfix
    · next hnpre =>
      cases cs with
      | nil => exact absurd (by simpa using hinf) hp
      | cons ch t =>
        rcases List.infix_cons_iff.1 hinf with hpre | htail
        · exact absurd hpre hnpre
        · exact List.infix_cons
            (pyReplaceGo_infix_repl hp fuel t (by simpa using Nat.le_of_succ_le_succ hlen) htail)

/-- The output of rule 3 always contains `KY` in its uppercase form. -/
theorem addKY_ky (s : String) : "KY".toList <:+: upperL (addKY s).toList := by
  obtain ⟨l⟩ := s
  unfold addKY
  split
  · have h : (String.mk l ++ ", KY").toList = l ++ [',', ' ', 'K', 'Y'] := rfl
    rw [h, show upperL (l ++ [',', ' ', 'K', 'Y']) = upperL l ++ [',', ' ', 'K', 'Y'] from
      List.map_append _ _ _]
    exact infix_append_left _ (by decide)
  · next hcond =>
    rcases Decidable.not_and_iff_or_not.1 hcond with hA | hB
    · exact Decidable.not_not.1 hA
    · exact List.IsInfix.trans (by decide) (Decidable.not_not.1 hB)

/-- Rule 4 preserves the presence of `KY`: either it does not fire, or the
replacement string it inserts itself ends in `", KY"`. -/
theorem countyInsert_ky (s county : String)
    (h : "KY".toList <:+: upperL s.toList) :
    "KY".toList <:+: upperL (countyInsert s county).toList := by
  unfold countyInsert
  split
  · split
    · next hin =>
      have hrep : (',' :: ' ' :: (county.toList ++ " County, KY".toList)) <:+:
          pyReplaceGo ", KY".toList
            (',' :: ' ' :: (county.toList ++ " County, KY".toList))
            (s.toList.length + 1) s.toList :=
        pyReplaceGo_infix_repl (by decide) _ _ (Nat.le_succ _) hin
      have hky : "KY".toList <:+:
          (',' :: ' ' :: (county.toList ++ " County, KY".toList)) :=
        List.infix_cons (List.infix_cons (infix_append_left _ (by decide)))
      have := infix_upper (hky.trans hrep)
      rwa [show upperL "KY".toList = "KY".toList from rfl] at this
    · exact h
  · exact h

/-! ### Claim theorems C5 and C7 -/

/-- C5 (amended): `format_address` is not idempotent in general — rule 4 can
re-insert the county and rule 2 can re-fire on a remaining unguarded suite
token — but rule 3 is: the output of `format_address` on a non-empty input
always contains `KY` (uppercased), so applying rule 3 to any normalizer
output changes nothing and no duplicate `", KY"` suffix is ever appended. -/
theorem c5_no_duplicate_ky (a c : String) (h : a ≠ "") :
    "KY".toList <:+: upperL (format_address a c).toList ∧
    addKY (format_address a c) = format_address a c := by
  have hky : "KY".toList <:+: upperL (format_address a c).toList := by
    unfold format_address
    rw [if_neg h]
    exact countyInsert_ky _ _ (addKY_ky _)
  exact ⟨hky, by unfold addKY; rw [if_neg (fun hc => hc.1 hky)]⟩

theorem c5_no_duplicate_ky_w :
    "KY".toList <:+: upperL (format_address "Main St Lexington" "Fayette").toList ∧
    addKY (format_address "Main St Lexington" "Fayette") =
      format_address "Main St Lexington" "Fayette" :=
  c5_no_duplicate_ky "Main St Lexington" "Fayette" (by decide)

/-- C5, counterexample to the claim as stated: normalizing an
already-normalized address again re-inserts the county, so
`format_address` is not idempotent. -/
theorem c5_idempotence_cx :
    format_address (format_address "Main St Lexington" "Fayette") "Fayette" ≠
      format_address "Main St Lexington" "Fayette" := by
  decide

/-- C7 (amended): only the exactly-empty raw address maps to the empty
string; a whitespace-only (blank but non-empty) input is normalized to
`", KY"`, or to `", <County> County, KY"` when a county is supplied. -/
theorem c7_empty_input :
    (∀ c, format_address "" c = "") ∧
    (∀ a c, a ≠ "" → pyStripL a.toList = [] →
      format_address a c = if c = "" then ", KY" else ", " ++ c ++ " County, KY") := by
  constructor
  · intro c
    rfl
  · intro a c ha hs
    unfold format_address
    rw [if_neg ha, hs]
    have h2 : addKY (String.mk (fmtSuiteFold [])) = ", KY" := rfl
    rw [h2]
    by_cases hc : c = ""
    · subst hc
      rfl
    · rw [if_neg hc]
      unfold countyInsert
      rw [if_pos ⟨by decide, hc⟩, if_pos (by decide)]
      obtain ⟨cl⟩ := c
      show String.mk ((',' :: ' ' :: (cl ++ " County, KY".toList)) ++ []) =
        String.mk (((", ").toList ++ cl) ++ " County, KY".toList)
      exact congrArg String.mk (by simp)

theorem c7_empty_input_w :
    format_address "" "Fayette" = "" ∧ format_address "   " "" = ", KY" := by
  refine ⟨c7_empty_input.1 "Fayette", ?_⟩
  have h := c7_empty_input.2 "   " "" (by decide) (by decide)
  simpa using h

/-- C7, counterexample to the claim as stated: a whitespace-only input is
not mapped to the empty string. -/
theorem c7_blank_cx :
    format_address "   " "" = ", KY" ∧ (", KY" : String) ≠ "" := by
  decide
